import Mathlib

/-!
Verification of `densenet-img-cls/densenetimgcls/utils.py`.

Shallow embedding conventions:
* Python numbers are modelled as `ℚ` (arbitrary-precision exact arithmetic;
  floating point rounding is out of scope, the claims are about the exact
  formulas).
* Python `ZeroDivisionError` (and any other raised exception) is modelled by
  returning `none` from an `Option`-valued function.
* File-system effects are modelled by explicit state records.
-/

namespace DenseNetUtils

/-- Embedding of the Python class `AverageMeter` (utils.py, lines 16-34):
fields `val`, `avg`, `sum`, `count`. -/
structure AverageMeter where
  val : ℚ
  avg : ℚ
  sum : ℚ
  count : ℚ
deriving DecidableEq, Repr

/-- `AverageMeter.reset`: sets all four fields to `0`. -/
def AverageMeter.reset (_ : AverageMeter) : AverageMeter :=
  { val := 0, avg := 0, sum := 0, count := 0 }

/-- `AverageMeter.__init__`: calls `reset`, so a fresh meter is all zeros. -/
def AverageMeter.init : AverageMeter :=
  AverageMeter.reset ⟨0, 0, 0, 0⟩

/-- Embedding of `AverageMeter.update(self, val, n=1)`:

    self.val = val
    self.sum += val * n
    self.count += n
    self.avg = self.sum / self.count

The final line divides by the updated `count` with no guard; in Python a zero
`count` raises `ZeroDivisionError`, which we model as `none`. -/
def AverageMeter.update (m : AverageMeter) (val : ℚ) (n : ℚ := 1) :
    Option AverageMeter :=
  let sum := m.sum + val * n
  let count := m.count + n
  if count = 0 then none
  else some { val := val, sum := sum, count := count, avg := sum / count }

/-- A sequence of `update` calls (pairs `(val, n)`) performed on a meter,
propagating a raised `ZeroDivisionError` as `none`. -/
def runUpdates (m : AverageMeter) (l : List (ℚ × ℚ)) : Option AverageMeter :=
  l.foldlM (fun s p => s.update p.1 p.2) m

theorem runUpdates_nil (m : AverageMeter) : runUpdates m [] = some m := rfl

theorem runUpdates_cons (m : AverageMeter) (p : ℚ × ℚ) (l : List (ℚ × ℚ)) :
    runUpdates m (p :: l) =
      (m.update p.1 p.2).bind (fun m' => runUpdates m' l) := by
  cases h : m.update p.1 p.2 <;> simp [runUpdates, List.foldlM, h]

/-- Sum of `val * n` over the update sequence. -/
def sumVN (l : List (ℚ × ℚ)) : ℚ := (l.map (fun p => p.1 * p.2)).sum

/-- Sum of `n` over the update sequence. -/
def sumN (l : List (ℚ × ℚ)) : ℚ := (l.map (fun p => p.2)).sum

theorem sumN_nonneg (l : List (ℚ × ℚ)) (h : ∀ p ∈ l, 0 < p.2) : 0 ≤ sumN l := by
  induction l with
  | nil => simp [sumN]
  | cons p l ih =>
    have h1 := h p (List.mem_cons_self p l)
    have h2 : 0 ≤ sumN l := ih (fun q hq => h q (List.mem_cons_of_mem p hq))
    simp only [sumN, List.map_cons, List.sum_cons] at *
    linarith

/-- Main invariant for a run of positive-`n` updates started at a meter with
nonnegative count and consistent average. -/
theorem runUpdates_spec (l : List (ℚ × ℚ)) (m : AverageMeter)
    (hc : 0 ≤ m.count) (havg : m.avg = m.sum / m.count)
    (hn : ∀ p ∈ l, 0 < p.2) :
    ∃ m', runUpdates m l = some m' ∧
      m'.sum = m.sum + sumVN l ∧
      m'.count = m.count + sumN l ∧
      m'.avg = m'.sum / m'.count ∧
      m'.val = ((l.map Prod.fst).getLast?).getD m.val := by
  induction l generalizing m with
  | nil =>
    exact ⟨m, rfl, by simp [sumVN], by simp [sumN], havg, by simp⟩
  | cons p l ih =>
    have hp : 0 < p.2 := hn p (List.mem_cons_self p l)
    have hcount : m.count + p.2 ≠ 0 := by positivity
    set m1 : AverageMeter :=
      { val := p.1, sum := m.sum + p.1 * p.2, count := m.count + p.2,
        avg := (m.sum + p.1 * p.2) / (m.count + p.2) } with hm1
    have hupd : m.update p.1 p.2 = some m1 := by
      simp [AverageMeter.update, hcount, hm1]
    obtain ⟨m', hrun, hsum, hcnt, havg', hval⟩ :=
      ih m1 (by simp [hm1]; linarith) (by simp [hm1])
        (fun q hq => hn q (List.mem_cons_of_mem p hq))
    refine ⟨m', ?_, ?_, ?_, havg', ?_⟩
    · rw [runUpdates_cons, hupd]; exact hrun
    · simp only [hm1] at hsum
      simp [sumVN, List.map_cons, List.sum_cons] at *
      linarith
    · simp only [hm1] at hcnt
      simp [sumN, List.map_cons, List.sum_cons] at *
      linarith
    · rcases hl : l.map Prod.fst with _ | ⟨q, tl⟩
      · have : l = [] := by
          cases l with
          | nil => rfl
          | cons a b => simp [List.map_cons] at hl
        subst this
        simp only [List.map_cons, List.map_nil] at *
        simpa [hm1] using hval
      · simp only [hl] at hval
        simp [List.map_cons, hl, List.getLast?_cons_cons] at *
        exact hval

/-- C1: For every finite sequence of calls `update(v1,n1), ..., update(vk,nk)`
with `k ≥ 1` and every `ni` a positive integer, performed on a freshly
constructed (or reset) `AverageMeter`, afterwards `sum` equals the sum of
`vi*ni`, `count` equals the sum of `ni`, `avg` equals `sum/count`, and `val`
equals `vk`. -/
theorem averageMeter_running_mean_correct (l : List (ℚ × ℚ))
    (hne : l ≠ [])
    (hn : ∀ p ∈ l, ∃ k : ℕ, 0 < k ∧ p.2 = (k : ℚ)) :
    ∃ m', runUpdates AverageMeter.init l = some m' ∧
      m'.sum = sumVN l ∧
      m'.count = sumN l ∧
      m'.avg = m'.sum / m'.count ∧
      some m'.val = (l.map Prod.fst).getLast? := by
  have hpos : ∀ p ∈ l, 0 < p.2 := by
    intro p hp
    obtain ⟨k, hk, he⟩ := hn p hp
    rw [he]
    exact_mod_cast hk
  obtain ⟨m', hrun, hsum, hcnt, havg, hval⟩ :=
    runUpdates_spec l AverageMeter.init (by norm_num [AverageMeter.init, AverageMeter.reset])
      (by norm_num [AverageMeter.init, AverageMeter.reset]) hpos
  refine ⟨m', hrun, by simpa [AverageMeter.init, AverageMeter.reset] using hsum,
    by simpa [AverageMeter.init, AverageMeter.reset] using hcnt, havg, ?_⟩
  have hmap : l.map Prod.fst ≠ [] := by
    simpa using hne
  obtain ⟨q, hq⟩ := Option.isSome_iff_exists.mp (List.getLast?_isSome.mpr hmap)
  rw [hq]
  rw [hq] at hval
  simp at hval
  simp [hval]

/-- Witness for C1 at the concrete run `update(3, 2); update(5, 1)`. -/
theorem averageMeter_running_mean_correct_witness :
    ∃ m', runUpdates AverageMeter.init [(3, 2), (5, 1)] = some m' ∧
      m'.sum = sumVN [(3, 2), (5, 1)] ∧
      m'.count = sumN [(3, 2), (5, 1)] ∧
      m'.avg = m'.sum / m'.count ∧
      some m'.val = (([(3, 2), (5, 1)] : List (ℚ × ℚ)).map Prod.fst).getLast? :=
  averageMeter_running_mean_correct [(3, 2), (5, 1)] (by decide)
    (by
      intro p hp
      simp only [List.mem_cons, List.mem_singleton, List.not_mem_nil,
        or_false] at hp
      rcases hp with h | h <;> subst h
      · exact ⟨2, by norm_num, by norm_num⟩
      · exact ⟨1, by norm_num, by norm_num⟩)

/-- C9: `AverageMeter.update` divides by `count` with no guard: calling
`update(val, 0)` on a freshly constructed or reset `AverageMeter` raises a
`ZeroDivisionError` (modelled as `none`), while for every sequence of updates
in which every `n ≥ 1` the division computing `avg` is safe (no `none` ever
arises). -/
theorem averageMeter_update_div_by_zero
    (v : ℚ) (l : List (ℚ × ℚ)) (hn : ∀ p ∈ l, 1 ≤ p.2) :
    AverageMeter.init.update v 0 = none ∧
      ∃ m', runUpdates AverageMeter.init l = some m' := by
  constructor
  · simp [AverageMeter.init, AverageMeter.reset, AverageMeter.update]
  · obtain ⟨m', hrun, -⟩ :=
      runUpdates_spec l AverageMeter.init
        (by norm_num [AverageMeter.init, AverageMeter.reset])
        (by norm_num [AverageMeter.init, AverageMeter.reset])
        (fun p hp => lt_of_lt_of_le one_pos (hn p hp))
    exact ⟨m', hrun⟩

/-- Witness for C9 at `v = 5` and the run `update(3, 1)`. -/
theorem averageMeter_update_div_by_zero_witness :
    AverageMeter.init.update 5 0 = none ∧
      ∃ m', runUpdates AverageMeter.init [(3, 1)] = some m' :=
  averageMeter_update_div_by_zero 5 [(3, 1)]
    (by intro p hp; simp only [List.mem_singleton] at hp; subst hp; norm_num)

/-! ## `save_checkpoint` (utils.py, lines 37-63) -/

/-- Fixed-point decimal rendering of a rational, embedding Python's
`f'{x:.prec f}'` format (the metric values, Python floats, are modelled as
exact rationals; rounding of the scaled value to the nearest integer stands
in for the float-to-decimal conversion). -/
def fmtFixed (q : ℚ) (prec : ℕ) : String :=
  let n : ℤ := round (q * ((10 : ℚ) ^ prec))
  let base : ℕ := 10 ^ prec
  let a : ℕ := n.natAbs
  let fracStr := toString (a % base)
  let pad := String.mk (List.replicate (prec - fracStr.length) '0')
  (if n < 0 then "-" else "") ++ toString (a / base) ++ "." ++ pad ++ fracStr

/-- The `state` dict passed to `save_checkpoint`, with the keys the function
reads: `epoch`, `train_loss`, `train_error`, `valid_loss`, `valid_error`,
`state_dict`, `best_accuracy`, `counter`.  The serialized weights
(`state_dict`) are opaque, of a type parameter `W`. -/
structure CkptState (W : Type) where
  epoch : ℤ
  train_loss : ℚ
  train_error : ℚ
  valid_loss : ℚ
  valid_error : ℚ
  state_dict : W
  best_accuracy : ℚ
  counter : ℤ

/-- The directory `save_path` as `save_checkpoint` sees it: the contents of
`log.txt` (opened in mode `'a'`, so modelled as an append-target string) and
the contents of `best_model.pth` (absent = `none`). -/
structure SaveDir (W : Type) where
  log : String
  best_model : Option W

/-- The epoch-metrics line: embedding of

    ','.join([f'Epoch {...:d}', f'train_loss {...:.6f}', f'train_error {...:.6f}',
              f'valid_loss {...:.5f}', f'valid_error {...:.5f}\n'])
-/
def metricsLine {W : Type} (state : CkptState W) : String :=
  "Epoch " ++ toString state.epoch ++
  ",train_loss " ++ fmtFixed state.train_loss 6 ++
  ",train_error " ++ fmtFixed state.train_error 6 ++
  ",valid_loss " ++ fmtFixed state.valid_loss 5 ++
  ",valid_error " ++ fmtFixed state.valid_error 5 ++ "\n"

/-- The new-best message: embedding of
`f'Get better top1 accuracy: {state["best_accuracy"]:.4f} saving weights to {best_checkpoint_path}\n'`. -/
def bestMessage {W : Type} (state : CkptState W) (save_path : String) : String :=
  "Get better top1 accuracy: " ++ fmtFixed state.best_accuracy 4 ++
  " saving weights to " ++ (save_path ++ "/best_model.pth") ++ "\n"

/-- Embedding of `save_checkpoint(state, is_best, save_path, patience)`
(utils.py, lines 37-63).  Returns the updated directory contents and the
`early_stop` return value.  `logger.info` console output is not modelled
(it reads no state and writes no file). -/
def save_checkpoint {W : Type} (state : CkptState W) (is_best : Bool)
    (save_path : String) (patience : ℤ) (dir : SaveDir W) :
    SaveDir W × Bool :=
  let dir1 : SaveDir W := { dir with log := dir.log ++ metricsLine state }
  let dir2 : SaveDir W :=
    if is_best then
      { dir1 with
        best_model := some state.state_dict,
        log := dir1.log ++ bestMessage state save_path }
    else dir1
  let early_stop : Bool := if state.counter ≥ patience then true else false
  let dir3 : SaveDir W :=
    if early_stop then { dir2 with log := dir2.log ++ "early stopped.\n" }
    else dir2
  (dir3, early_stop)

/-- C4: For every call, `save_checkpoint` returns `True` (signals early stop)
if and only if `state["counter"] >= patience`, independently of the `is_best`
flag; and when it returns `True` it also appends the line `"early stopped.\n"`
to `log.txt`. -/
theorem save_checkpoint_early_stop {W : Type} (state : CkptState W)
    (is_best : Bool) (save_path : String) (patience : ℤ) (dir : SaveDir W) :
    ((save_checkpoint state is_best save_path patience dir).2 = true ↔
      patience ≤ state.counter) ∧
    ((save_checkpoint state is_best save_path patience dir).2 =
      (save_checkpoint state (!is_best) save_path patience dir).2) ∧
    ((save_checkpoint state is_best save_path patience dir).2 = true →
      ∃ pre, (save_checkpoint state is_best save_path patience dir).1.log =
        pre ++ "early stopped.\n") := by
  unfold save_checkpoint
  by_cases h : patience ≤ state.counter <;> cases is_best <;> simp [h] <;>
    exact ⟨_, rfl⟩

/-- Witness for C4: counter `3 ≥ patience 2`, `is_best = false`. -/
theorem save_checkpoint_early_stop_witness :
    (((save_checkpoint (W := Unit)
        ⟨1, 0, 0, 0, 0, (), 0, 3⟩ false "d" 2 ⟨"", none⟩).2 = true ↔
      (2 : ℤ) ≤ 3) ∧
    ((save_checkpoint (W := Unit)
        ⟨1, 0, 0, 0, 0, (), 0, 3⟩ false "d" 2 ⟨"", none⟩).2 =
      (save_checkpoint (W := Unit)
        ⟨1, 0, 0, 0, 0, (), 0, 3⟩ (!false) "d" 2 ⟨"", none⟩).2) ∧
    ((save_checkpoint (W := Unit)
        ⟨1, 0, 0, 0, 0, (), 0, 3⟩ false "d" 2 ⟨"", none⟩).2 = true →
      ∃ pre, (save_checkpoint (W := Unit)
        ⟨1, 0, 0, 0, 0, (), 0, 3⟩ false "d" 2 ⟨"", none⟩).1.log =
        pre ++ "early stopped.\n")) :=
  save_checkpoint_early_stop ⟨1, 0, 0, 0, 0, (), 0, 3⟩ false "d" 2 ⟨"", none⟩

/-- C5: `save_checkpoint` writes the model weights `state["state_dict"]` to
`best_model.pth` under `save_path` if and only if `is_best` is true, and in
that case also appends a message containing the new best accuracy to
`log.txt`; for every call with `is_best` false, no weights file is written or
modified. -/
theorem save_checkpoint_best_model {W : Type} (state : CkptState W)
    (save_path : String) (patience : ℤ) (dir : SaveDir W) :
    ((save_checkpoint state true save_path patience dir).1.best_model =
      some state.state_dict) ∧
    (∃ pre post,
      (save_checkpoint state true save_path patience dir).1.log =
        pre ++ ("Get better top1 accuracy: " ++
          fmtFixed state.best_accuracy 4) ++ post) ∧
    ((save_checkpoint state false save_path patience dir).1.best_model =
      dir.best_model) := by
  unfold save_checkpoint
  refine ⟨?_, ?_, ?_⟩
  · by_cases h : patience ≤ state.counter <;> simp [h]
  · by_cases h : patience ≤ state.counter <;>
      simp only [if_true, if_false, h, ge_iff_le, if_pos, if_neg] <;>
      [exact ⟨dir.log ++ metricsLine state,
        " saving weights to " ++ (save_path ++ "/best_model.pth") ++ "\n" ++
          "early stopped.\n",
        by simp [bestMessage, String.append_assoc]⟩;
       exact ⟨dir.log ++ metricsLine state,
        " saving weights to " ++ (save_path ++ "/best_model.pth") ++ "\n",
        by simp [bestMessage, String.append_assoc]⟩]
  · by_cases h : patience ≤ state.counter <;> simp [h]

/-- C6: Every call to `save_checkpoint` appends exactly one comma-separated
line with the epoch number and the `train_loss`, `train_error`, `valid_loss`
and `valid_error` metrics to `log.txt` under `save_path`, and only ever
appends to that file: the prior contents of `log.txt` are never truncated or
rewritten by any call.  The theorem characterises the new log contents
exactly: the old contents, then the single metrics line, then (only) the
optional best-model message and early-stop line. -/
theorem save_checkpoint_log_append {W : Type} (state : CkptState W)
    (is_best : Bool) (save_path : String) (patience : ℤ) (dir : SaveDir W) :
    (save_checkpoint state is_best save_path patience dir).1.log =
      dir.log ++ metricsLine state ++
        (if is_best then bestMessage state save_path else "") ++
        (if patience ≤ state.counter then "early stopped.\n" else "") := by
  unfold save_checkpoint
  by_cases h : patience ≤ state.counter <;> cases is_best <;>
    simp [h, String.append_assoc]

/-! ## `get_transform` (utils.py, lines 66-87) -/

/-- The torchvision transform constructors that `get_transform` uses, as
symbolic pipeline stages (their image semantics live in the external
framework and are out of scope; the claims are about which stages appear
with which parameters). -/
inductive Transform where
  | Resize (size : ℕ)
  | CenterCrop (size : ℕ)
  | RandomHorizontalFlip
  | ToTensor
  | Normalize (mean std : List ℚ)
deriving DecidableEq, Repr

/-- A transform is random exactly when it is `RandomHorizontalFlip` (the only
stochastic stage among the constructors used here). -/
def Transform.isRandom : Transform → Bool
  | .RandomHorizontalFlip => true
  | _ => false

/-- Embedding of `get_transform()`: `transforms.Compose` is the pipeline
list, returned as the pair `(train_transforms, test_transforms)`. -/
def get_transform : List Transform × List Transform :=
  let mean : List ℚ := [0.485, 0.456, 0.406]
  let stdv : List ℚ := [0.229, 0.224, 0.225]
  ([Transform.Resize 256,
    Transform.CenterCrop 224,
    Transform.RandomHorizontalFlip,
    Transform.ToTensor,
    Transform.Normalize mean stdv],
   [Transform.Resize 256,
    Transform.CenterCrop 224,
    Transform.ToTensor,
    Transform.Normalize mean stdv])

/-- C7: `get_transform` returns a pair `(train, evaluation)` of fixed
preprocessing pipelines that both resize to 256, center-crop to 224, convert
to tensor, and normalize with the ImageNet channel statistics mean
`[0.485, 0.456, 0.406]` and std `[0.229, 0.224, 0.225]`; the training
pipeline additionally applies a random horizontal flip, and the evaluation
pipeline contains no random transform. -/
theorem get_transform_pipelines :
    (Transform.Resize 256 ∈ get_transform.1 ∧
      Transform.Resize 256 ∈ get_transform.2) ∧
    (Transform.CenterCrop 224 ∈ get_transform.1 ∧
      Transform.CenterCrop 224 ∈ get_transform.2) ∧
    (Transform.ToTensor ∈ get_transform.1 ∧
      Transform.ToTensor ∈ get_transform.2) ∧
    (Transform.Normalize [0.485, 0.456, 0.406] [0.229, 0.224, 0.225]
        ∈ get_transform.1 ∧
      Transform.Normalize [0.485, 0.456, 0.406] [0.229, 0.224, 0.225]
        ∈ get_transform.2) ∧
    Transform.RandomHorizontalFlip ∈ get_transform.1 ∧
    (∀ t ∈ get_transform.2, t.isRandom = false) := by
  refine ⟨⟨?_, ?_⟩, ⟨?_, ?_⟩, ⟨?_, ?_⟩, ⟨?_, ?_⟩, ?_, ?_⟩ <;>
    simp [get_transform, Transform.isRandom]

/-! ## `load_model` (utils.py, lines 90-97) -/

/-- The hardware/file environment `load_model` consults: `torch.cuda` device
availability and the result of `torch.load` on each path (`none` models the
exception raised when the weights file is missing or unreadable). -/
structure TorchEnv (W : Type) where
  cuda_available : Bool
  device_count : ℕ
  load : String → Option W

/-- Where a model has been placed. -/
inductive Device where
  | cpu
  | cuda
deriving DecidableEq, Repr

/-- The model object built by `load_model`, recording the `MyDenseNet`
constructor arguments (the network internals live in `densenet.py`, outside
these claims), the loaded weights together with the path and `map_location`
they were read with, and the hardware placement (`DataParallel` wrapping is
a flag). -/
structure LoadedModel (W : Type) where
  model_type : String
  pretrained : Bool
  memory_efficient : Bool
  classes : ℕ
  state_dict : W
  src_path : String
  map_location : String
  device : Device
  data_parallel : Bool
deriving Repr

/-- Embedding of `load_model(model_path, model_type, memory_efficient,
num_classes)` (utils.py, lines 90-97). -/
def load_model {W : Type} (env : TorchEnv W) (model_path model_type : String)
    (memory_efficient : Bool) (num_classes : ℕ) : Option (LoadedModel W) := do
  let w ← env.load (model_path ++ "/best_model.pth")
  let model : LoadedModel W :=
    { model_type := model_type, pretrained := false,
      memory_efficient := memory_efficient, classes := num_classes,
      state_dict := w, src_path := model_path ++ "/best_model.pth",
      map_location := "cpu", device := Device.cpu, data_parallel := false }
  let model :=
    if env.cuda_available then
      let model := { model with device := Device.cuda }
      if env.device_count > 1 then
        { model with data_parallel := true, device := Device.cuda }
      else model
    else model
  some model

/-- C8: `load_model` reconstructs the classifier as a `MyDenseNet` built with
`pretrained=False` and the given `model_type`, `memory_efficient` and
`num_classes`, loads its weights from the file `best_model.pth` under
`model_path` (mapped to CPU), and places it on CUDA (wrapped in
`DataParallel` when more than one device is present) if and only if CUDA is
available; otherwise the returned model remains on CPU. -/
theorem load_model_spec {W : Type} (env : TorchEnv W)
    (model_path model_type : String) (memory_efficient : Bool)
    (num_classes : ℕ) (w : W)
    (hfile : env.load (model_path ++ "/best_model.pth") = some w) :
    ∃ m, load_model env model_path model_type memory_efficient num_classes =
        some m ∧
      m.model_type = model_type ∧
      m.pretrained = false ∧
      m.memory_efficient = memory_efficient ∧
      m.classes = num_classes ∧
      m.state_dict = w ∧
      m.src_path = model_path ++ "/best_model.pth" ∧
      m.map_location = "cpu" ∧
      (m.device = Device.cuda ↔ env.cuda_available = true) ∧
      (m.data_parallel = (env.cuda_available && decide (env.device_count > 1))) := by
  unfold load_model
  rw [hfile]
  cases hc : env.cuda_available <;> by_cases hd : env.device_count > 1 <;>
    simp [Option.bind, hc, hd]

/-- Witness for C8: one CUDA device available, weights file present. -/
theorem load_model_spec_witness :
    ∃ m, load_model (W := ℕ)
        ⟨true, 1, fun p => if p = "mp/best_model.pth" then some 7 else none⟩
        "mp" "densenet121" false 10 = some m ∧
      m.model_type = "densenet121" ∧
      m.pretrained = false ∧
      m.memory_efficient = false ∧
      m.classes = 10 ∧
      m.state_dict = 7 ∧
      m.src_path = "mp" ++ "/best_model.pth" ∧
      m.map_location = "cpu" ∧
      (m.device = Device.cuda ↔
        (TorchEnv.cuda_available (W := ℕ)
          ⟨true, 1, fun p => if p = "mp/best_model.pth" then some 7 else none⟩)
          = true) ∧
      (m.data_parallel =
        ((TorchEnv.cuda_available (W := ℕ)
          ⟨true, 1, fun p => if p = "mp/best_model.pth" then some 7 else none⟩) &&
          decide ((TorchEnv.device_count (W := ℕ)
          ⟨true, 1, fun p => if p = "mp/best_model.pth" then some 7 else none⟩) > 1))) :=
  load_model_spec
    ⟨true, 1, fun p => if p = "mp/best_model.pth" then some 7 else none⟩
    "mp" "densenet121" false 10 7 (by simp)

/-! ## `evaluate` (utils.py, lines 100-139)

The loader yields batches `(input, target)`; the model maps an input to a
matrix of class scores (`output`), one row per sample.  `torch.topk(1, dim=1)`
on a row yields the index of its (first) maximal entry.  The batch loss
`F.cross_entropy(output, target)` lives in the external framework and stays
an abstract parameter `cross_entropy`; its default-reduction "mean of the
per-sample losses" behaviour is modelled separately (`meanCE`) where a claim
depends on it.  `time.time()` deltas are supplied by an abstract duration
sequence `durs`.  Console logging (`logger.info` under `print_freq`) reads
the meters and writes no state, so it is not modelled. -/

/-- Index of the first maximal entry of a row: embedding of
`output.topk(1, dim=1)` followed by `i[0]` per row (`0` on an empty row,
which torch would reject). -/
def argmaxRow (row : List ℚ) : ℕ :=
  ((row.enum.foldl
      (fun best p =>
        match best with
        | none => some p
        | some q => if q.2 < p.2 then some p else some q)
      none).map Prod.fst).getD 0

/-- Embedding of `torch.ne(pred.squeeze(), target.cpu()).float().sum().item()`:
the number of positions where prediction and target differ. -/
def numMismatch (pred target : List ℕ) : ℕ :=
  ((pred.zip target).filter (fun p => p.1 != p.2)).length

/-- The local state of the `evaluate` loop: the three meters and the two
accumulated lists. -/
structure EvalState where
  batch_time : AverageMeter
  losses : AverageMeter
  error : AverageMeter
  target_list : List ℕ
  pred_top1_list : List ℕ

/-- One iteration of the `evaluate` loop body on a batch `(input, target)`.
The division `... / batch_size` on an empty batch raises
`ZeroDivisionError`, modelled as `none`; `none` from a meter update is
likewise propagated. -/
def evalStep {α : Type} (model : α → List (List ℚ))
    (cross_entropy : List (List ℚ) → List ℕ → ℚ) (dur : ℚ)
    (s : EvalState) (batch : α × List ℕ) : Option EvalState :=
  let output := model batch.1
  let target := batch.2
  let loss := cross_entropy output target
  let batch_size : ℕ := target.length
  let pred : List ℕ := output.map argmaxRow
  let target_list := s.target_list ++ target
  let pred_top1_list := s.pred_top1_list ++ pred
  if batch_size = 0 then none
  else
    (s.error.update ((numMismatch pred target : ℚ) / (batch_size : ℚ))
        (batch_size : ℚ)).bind fun error =>
    (s.losses.update (loss / (batch_size : ℚ)) (batch_size : ℚ)).bind
        fun losses =>
    (s.batch_time.update dur).bind fun batch_time =>
    some { batch_time := batch_time, losses := losses, error := error,
           target_list := target_list, pred_top1_list := pred_top1_list }

/-- The `for batch_idx, (input, target) in enumerate(loader)` loop. -/
def evalLoop {α : Type} (model : α → List (List ℚ))
    (cross_entropy : List (List ℚ) → List ℕ → ℚ) (durs : ℕ → ℚ) :
    ℕ → EvalState → List (α × List ℕ) → Option EvalState
  | _, s, [] => some s
  | idx, s, b :: rest =>
    (evalStep model cross_entropy (durs idx) s b).bind
      (fun s' => evalLoop model cross_entropy durs (idx + 1) s' rest)

/-- The loop state at entry: three fresh meters, two empty lists. -/
def EvalState.init : EvalState :=
  { batch_time := AverageMeter.init, losses := AverageMeter.init,
    error := AverageMeter.init, target_list := [], pred_top1_list := [] }

/-- Embedding of `evaluate(model, loader, ...)`: runs the loop and returns
`(batch_time.avg, losses.avg, error.avg, (target_list, pred_top1_list))`. -/
def evaluate {α : Type} (model : α → List (List ℚ))
    (cross_entropy : List (List ℚ) → List ℕ → ℚ) (durs : ℕ → ℚ)
    (loader : List (α × List ℕ)) :
    Option (ℚ × ℚ × ℚ × (List ℕ × List ℕ)) :=
  (evalLoop model cross_entropy durs 0 EvalState.init loader).map
    (fun s =>
      (s.batch_time.avg, s.losses.avg, s.error.avg,
        (s.target_list, s.pred_top1_list)))

/-- Total number of samples across the loader's batches. -/
def totalCount {α : Type} (loader : List (α × List ℕ)) : ℕ :=
  (loader.map (fun b => b.2.length)).sum

/-- The per-row top-1 predictions of a batch. -/
def batchPreds {α : Type} (model : α → List (List ℚ)) (b : α × List ℕ) :
    List ℕ :=
  (model b.1).map argmaxRow

/-- Total number of samples whose top-1 prediction differs from the target. -/
def totalMismatch {α : Type} (model : α → List (List ℚ))
    (loader : List (α × List ℕ)) : ℕ :=
  (loader.map (fun b => numMismatch (batchPreds model b) b.2)).sum

/-- Sum over the loader of the per-batch `cross_entropy` values. -/
def sumBatchLoss {α : Type} (model : α → List (List ℚ))
    (cross_entropy : List (List ℚ) → List ℕ → ℚ)
    (loader : List (α × List ℕ)) : ℚ :=
  (loader.map (fun b => cross_entropy (model b.1) b.2)).sum

/-- All targets, concatenated in loader order. -/
def allTargets {α : Type} (loader : List (α × List ℕ)) : List ℕ :=
  loader.foldr (fun b acc => b.2 ++ acc) []

/-- All output rows, concatenated in loader order. -/
def allOutputs {α : Type} (model : α → List (List ℚ))
    (loader : List (α × List ℕ)) : List (List ℚ) :=
  loader.foldr (fun b acc => model b.1 ++ acc) []

/-- All top-1 predictions, concatenated in loader order. -/
def allPreds {α : Type} (model : α → List (List ℚ))
    (loader : List (α × List ℕ)) : List ℕ :=
  loader.foldr (fun b acc => batchPreds model b ++ acc) []

theorem AverageMeter.update_eq_some (m : AverageMeter) (v n : ℚ)
    (h : m.count + n ≠ 0) :
    m.update v n = some
      { val := v, sum := m.sum + v * n, count := m.count + n,
        avg := (m.sum + v * n) / (m.count + n) } := by
  simp [AverageMeter.update, h]

/-- The state the loop body produces on a non-empty batch (a name for the
record so that proofs can pass it around). -/
def stepState {α : Type} (model : α → List (List ℚ))
    (ce : List (List ℚ) → List ℕ → ℚ) (dur : ℚ) (s : EvalState)
    (b : α × List ℕ) : EvalState :=
  { batch_time :=
      { val := dur, sum := s.batch_time.sum + dur * 1,
        count := s.batch_time.count + 1,
        avg := (s.batch_time.sum + dur * 1) / (s.batch_time.count + 1) },
    losses :=
      { val := ce (model b.1) b.2 / (b.2.length : ℚ),
        sum := s.losses.sum +
          ce (model b.1) b.2 / (b.2.length : ℚ) * (b.2.length : ℚ),
        count := s.losses.count + (b.2.length : ℚ),
        avg := (s.losses.sum +
          ce (model b.1) b.2 / (b.2.length : ℚ) * (b.2.length : ℚ)) /
          (s.losses.count + (b.2.length : ℚ)) },
    error :=
      { val := (numMismatch (batchPreds model b) b.2 : ℚ) /
          (b.2.length : ℚ),
        sum := s.error.sum +
          (numMismatch (batchPreds model b) b.2 : ℚ) /
            (b.2.length : ℚ) * (b.2.length : ℚ),
        count := s.error.count + (b.2.length : ℚ),
        avg := (s.error.sum +
          (numMismatch (batchPreds model b) b.2 : ℚ) /
            (b.2.length : ℚ) * (b.2.length : ℚ)) /
          (s.error.count + (b.2.length : ℚ)) },
    target_list := s.target_list ++ b.2,
    pred_top1_list := s.pred_top1_list ++ batchPreds model b }

/-- On a non-empty batch with well-formed meter counts, the loop body
succeeds and its effect on every field is explicit. -/
theorem evalStep_eq_some {α : Type} (model : α → List (List ℚ))
    (ce : List (List ℚ) → List ℕ → ℚ) (dur : ℚ) (s : EvalState)
    (b : α × List ℕ) (hb : b.2.length ≠ 0)
    (he : s.error.count + (b.2.length : ℚ) ≠ 0)
    (hl : s.losses.count + (b.2.length : ℚ) ≠ 0)
    (ht : s.batch_time.count + 1 ≠ 0) :
    evalStep model ce dur s b = some (stepState model ce dur s b) := by
  simp only [evalStep, stepState, batchPreds, if_neg hb]
  rw [AverageMeter.update_eq_some _ _ _ he, Option.some_bind,
    AverageMeter.update_eq_some _ _ _ hl, Option.some_bind,
    AverageMeter.update_eq_some _ _ _ ht, Option.some_bind]

theorem evalLoop_nil {α : Type} (model : α → List (List ℚ))
    (ce : List (List ℚ) → List ℕ → ℚ) (durs : ℕ → ℚ) (idx : ℕ)
    (s : EvalState) : evalLoop model ce durs idx s [] = some s := rfl

theorem evalLoop_cons {α : Type} (model : α → List (List ℚ))
    (ce : List (List ℚ) → List ℕ → ℚ) (durs : ℕ → ℚ) (idx : ℕ)
    (s : EvalState) (b : α × List ℕ) (rest : List (α × List ℕ)) :
    evalLoop model ce durs idx s (b :: rest) =
      (evalStep model ce (durs idx) s b).bind
        (fun s' => evalLoop model ce durs (idx + 1) s' rest) := rfl

/-- Main invariant of the `evaluate` loop, for any start state whose meter
counts are natural numbers and whose `losses`/`error` averages are consistent
(`0/0 = 0` makes the fresh meters consistent). -/
theorem evalLoop_spec {α : Type} (model : α → List (List ℚ))
    (ce : List (List ℚ) → List ℕ → ℚ) (durs : ℕ → ℚ)
    (loader : List (α × List ℕ)) (idx : ℕ) (s : EvalState)
    (hcb : ∃ k : ℕ, s.batch_time.count = (k : ℚ))
    (hcl : ∃ k : ℕ, s.losses.count = (k : ℚ))
    (hce : ∃ k : ℕ, s.error.count = (k : ℚ))
    (havgl : s.losses.avg = s.losses.sum / s.losses.count)
    (havge : s.error.avg = s.error.sum / s.error.count)
    (hne : ∀ b ∈ loader, b.2 ≠ []) :
    ∃ s', evalLoop model ce durs idx s loader = some s' ∧
      s'.error.sum = s.error.sum + (totalMismatch model loader : ℚ) ∧
      s'.error.count = s.error.count + (totalCount loader : ℚ) ∧
      s'.error.avg = s'.error.sum / s'.error.count ∧
      s'.losses.sum = s.losses.sum + sumBatchLoss model ce loader ∧
      s'.losses.count = s.losses.count + (totalCount loader : ℚ) ∧
      s'.losses.avg = s'.losses.sum / s'.losses.count ∧
      s'.target_list = s.target_list ++ allTargets loader ∧
      s'.pred_top1_list = s.pred_top1_list ++ allPreds model loader := by
  induction loader generalizing idx s with
  | nil =>
    refine ⟨s, rfl, ?_, ?_, havge, ?_, ?_, havgl, ?_, ?_⟩ <;>
      simp [totalMismatch, totalCount, sumBatchLoss, allTargets, allPreds]
  | cons b rest ih =>
    obtain ⟨kb, hkb⟩ := hcb
    obtain ⟨kl, hkl⟩ := hcl
    obtain ⟨ke, hke⟩ := hce
    have hb2 : b.2 ≠ [] := hne b (List.mem_cons_self b rest)
    have hbs0 : b.2.length ≠ 0 := fun h => hb2 (List.length_eq_zero.mp h)
    have hbspos : (0 : ℚ) < (b.2.length : ℚ) := by
      exact_mod_cast Nat.pos_of_ne_zero hbs0
    have he' : s.error.count + (b.2.length : ℚ) ≠ 0 := by
      rw [hke]
      have : (0 : ℚ) ≤ (ke : ℚ) := Nat.cast_nonneg _
      linarith
    have hl' : s.losses.count + (b.2.length : ℚ) ≠ 0 := by
      rw [hkl]
      have : (0 : ℚ) ≤ (kl : ℚ) := Nat.cast_nonneg _
      linarith
    have ht' : s.batch_time.count + 1 ≠ 0 := by
      rw [hkb]
      have : (0 : ℚ) ≤ (kb : ℚ) := Nat.cast_nonneg _
      linarith
    rw [evalLoop_cons, evalStep_eq_some model ce (durs idx) s b hbs0 he' hl' ht',
      Option.some_bind]
    obtain ⟨s', hrun, hesum, hecnt, heavg, hlsum, hlcnt, hlavg, htl, hpl⟩ :=
      ih (idx + 1) (stepState model ce (durs idx) s b)
        ⟨kb + 1, by simp [stepState, hkb]⟩
        ⟨kl + b.2.length, by simp [stepState, hkl]⟩
        ⟨ke + b.2.length, by simp [stepState, hke]⟩
        rfl rfl
        (fun q hq => hne q (List.mem_cons_of_mem b hq))
    simp only [stepState] at hesum hecnt hlsum hlcnt htl hpl
    have hcancel_e :
        (numMismatch (batchPreds model b) b.2 : ℚ) / (b.2.length : ℚ) *
          (b.2.length : ℚ) = (numMismatch (batchPreds model b) b.2 : ℚ) :=
      div_mul_cancel₀ _ (ne_of_gt hbspos)
    have hcancel_l :
        ce (model b.1) b.2 / (b.2.length : ℚ) * (b.2.length : ℚ) =
          ce (model b.1) b.2 :=
      div_mul_cancel₀ _ (ne_of_gt hbspos)
    refine ⟨s', hrun, ?_, ?_, heavg, ?_, ?_, hlavg, ?_, ?_⟩
    · rw [hesum]
      simp only [hcancel_e, totalMismatch, List.map_cons, List.sum_cons]
      push_cast
      ring
    · rw [hecnt]
      simp only [totalCount, List.map_cons, List.sum_cons]
      push_cast
      ring
    · rw [hlsum]
      simp only [hcancel_l, sumBatchLoss, List.map_cons, List.sum_cons]
      ring
    · rw [hlcnt]
      simp only [totalCount, List.map_cons, List.sum_cons]
      push_cast
      ring
    · rw [htl]
      simp [allTargets, List.append_assoc]
    · rw [hpl]
      simp [allPreds, List.append_assoc]

theorem allTargets_length {α : Type} (loader : List (α × List ℕ)) :
    (allTargets loader).length = totalCount loader := by
  induction loader with
  | nil => rfl
  | cons b l ih => simp [allTargets, totalCount, List.length_append] at *; omega

theorem allPreds_eq_map {α : Type} (model : α → List (List ℚ))
    (loader : List (α × List ℕ)) :
    allPreds model loader = (allOutputs model loader).map argmaxRow := by
  induction loader with
  | nil => rfl
  | cons b l ih =>
    simp only [allPreds, allOutputs, batchPreds, List.foldr_cons,
      List.map_append] at ih ⊢
    rw [ih]

theorem allPreds_length {α : Type} (model : α → List (List ℚ))
    (loader : List (α × List ℕ))
    (hlen : ∀ b ∈ loader, (model b.1).length = b.2.length) :
    (allPreds model loader).length = totalCount loader := by
  induction loader with
  | nil => rfl
  | cons b l ih =>
    have h1 := hlen b (List.mem_cons_self b l)
    have h2 := ih (fun q hq => hlen q (List.mem_cons_of_mem b hq))
    simp [allPreds, totalCount, batchPreds, List.length_append, h1] at *
    omega

theorem EvalState.init_counts :
    EvalState.init.batch_time.count = ((0 : ℕ) : ℚ) ∧
    EvalState.init.losses.count = ((0 : ℕ) : ℚ) ∧
    EvalState.init.error.count = ((0 : ℕ) : ℚ) ∧
    EvalState.init.losses.avg =
      EvalState.init.losses.sum / EvalState.init.losses.count ∧
    EvalState.init.error.avg =
      EvalState.init.error.sum / EvalState.init.error.count := by
  norm_num [EvalState.init, AverageMeter.init, AverageMeter.reset]

/-- C2: For every run of `evaluate` over a data loader whose batches are all
non-empty, the third returned value (the aggregated top-1 error) equals the
number of samples whose top-1 predicted class differs from the target,
divided by the total number of samples across all batches (equivalently, the
batch-size-weighted average of the per-batch error rates). -/
theorem evaluate_top1_error {α : Type} (model : α → List (List ℚ))
    (ce : List (List ℚ) → List ℕ → ℚ) (durs : ℕ → ℚ)
    (loader : List (α × List ℕ))
    (hne : ∀ b ∈ loader, b.2 ≠ []) :
    ∃ bt ls er lists,
      evaluate model ce durs loader = some (bt, ls, er, lists) ∧
      er = (totalMismatch model loader : ℚ) / (totalCount loader : ℚ) := by
  obtain ⟨h0b, h0l, h0e, h0lavg, h0eavg⟩ := EvalState.init_counts
  obtain ⟨s', hrun, hesum, hecnt, heavg, -, -, -, -, -⟩ :=
    evalLoop_spec model ce durs loader 0 EvalState.init
      ⟨0, h0b⟩ ⟨0, h0l⟩ ⟨0, h0e⟩ h0lavg h0eavg hne
  refine ⟨s'.batch_time.avg, s'.losses.avg, s'.error.avg,
    (s'.target_list, s'.pred_top1_list), by simp [evaluate, hrun], ?_⟩
  rw [heavg, hesum, hecnt]
  norm_num [EvalState.init, AverageMeter.init, AverageMeter.reset]

/-- Witness for C2: a single batch of two samples, one top-1 miss. -/
theorem evaluate_top1_error_witness :
    ∃ bt ls er lists,
      evaluate (fun x : List (List ℚ) => x) (fun _ _ => (0 : ℚ))
        (fun _ => 0) [([[1, 2], [5, 0]], [0, 0])] =
        some (bt, ls, er, lists) ∧
      er = ((totalMismatch (fun x : List (List ℚ) => x)
          [([[1, 2], [5, 0]], [0, 0])] : ℕ) : ℚ) /
        ((totalCount [(([[1, 2], [5, 0]] : List (List ℚ)), [0, 0])] : ℕ) : ℚ) :=
  evaluate_top1_error (fun x : List (List ℚ) => x) (fun _ _ => (0 : ℚ))
    (fun _ => 0) [([[1, 2], [5, 0]], [0, 0])]
    (by
      intro b hb
      simp only [List.mem_singleton] at hb
      subst hb
      decide)

/-- Sum of the per-sample losses over a batch: the rows of `output` paired
with the corresponding entries of `target`. -/
def perSampleSum (perSample : List ℚ → ℕ → ℚ)
    (output : List (List ℚ)) (target : List ℕ) : ℚ :=
  ((output.zip target).map (fun p => perSample p.1 p.2)).sum

/-- Modelled from the external framework's documented behaviour:
`torch.nn.functional.cross_entropy(output, target)` with the default
`reduction='mean'` returns the arithmetic mean of the per-sample losses.
The per-sample loss function itself stays abstract. -/
def meanCE (perSample : List ℚ → ℕ → ℚ)
    (output : List (List ℚ)) (target : List ℕ) : ℚ :=
  perSampleSum perSample output target / (target.length : ℚ)

/-- C3 counterexample: on a single batch of two samples with per-sample
losses `1` and `3`, `evaluate` returns aggregated loss `1`, while the mean
per-sample loss over the data is `(1 + 3) / 2 = 2`.  (`F.cross_entropy`
already returns the per-batch mean; the code divides it by `batch_size`
again before weighting by `batch_size`, so the aggregate is the sum of the
per-batch means divided by the sample count, not the per-sample mean.) -/
theorem evaluate_loss_claim_counterexample :
    evaluate (fun x : List (List ℚ) => x)
        (meanCE (fun row t => row.getD t 0)) (fun _ => 0)
        [([[1], [3]], [0, 0])] =
      some (0, 1, 0, ([0, 0], [0, 0])) ∧
    (1 : ℚ) ≠
      perSampleSum (fun row t => row.getD t 0) [[1], [3]] [0, 0] /
        ((totalCount [(([[1], [3]] : List (List ℚ)), [0, 0])] : ℕ) : ℚ) := by
  constructor
  · rw [evaluate, evalLoop_cons,
      evalStep_eq_some _ _ _ _ _ (by decide)
        (by norm_num [EvalState.init, AverageMeter.init, AverageMeter.reset])
        (by norm_num [EvalState.init, AverageMeter.init, AverageMeter.reset])
        (by norm_num [EvalState.init, AverageMeter.init, AverageMeter.reset]),
      Option.some_bind, evalLoop_nil]
    simp only [stepState, EvalState.init, AverageMeter.init,
      AverageMeter.reset, batchPreds, meanCE, perSampleSum, numMismatch,
      Option.map_some', Option.some.injEq, Prod.mk.injEq]
    norm_num [argmaxRow]
  · norm_num [perSampleSum, totalCount]

/-- C3 (amended): For every run of `evaluate` over a data loader whose
batches are all non-empty, with the batch loss given by mean-reduction
cross-entropy, the second returned value equals the sum over batches of the
per-batch mean loss, divided by the total number of samples across all
batches (not the per-sample mean; the two agree only in special cases such
as all batches having size one). -/
theorem evaluate_loss_aggregate {α : Type} (model : α → List (List ℚ))
    (perSample : List ℚ → ℕ → ℚ) (durs : ℕ → ℚ)
    (loader : List (α × List ℕ))
    (hne : ∀ b ∈ loader, b.2 ≠ []) :
    ∃ bt ls er lists,
      evaluate model (meanCE perSample) durs loader =
        some (bt, ls, er, lists) ∧
      ls = sumBatchLoss model (meanCE perSample) loader /
        (totalCount loader : ℚ) := by
  obtain ⟨h0b, h0l, h0e, h0lavg, h0eavg⟩ := EvalState.init_counts
  obtain ⟨s', hrun, -, -, -, hlsum, hlcnt, hlavg, -, -⟩ :=
    evalLoop_spec model (meanCE perSample) durs loader 0 EvalState.init
      ⟨0, h0b⟩ ⟨0, h0l⟩ ⟨0, h0e⟩ h0lavg h0eavg hne
  refine ⟨s'.batch_time.avg, s'.losses.avg, s'.error.avg,
    (s'.target_list, s'.pred_top1_list), by simp [evaluate, hrun], ?_⟩
  rw [hlavg, hlsum, hlcnt]
  norm_num [EvalState.init, AverageMeter.init, AverageMeter.reset]

/-- Witness for C3 (amended) on the counterexample's batch: aggregated loss
`1 = (mean of batch) / 2 · ...` at a concrete input. -/
theorem evaluate_loss_aggregate_witness :
    ∃ bt ls er lists,
      evaluate (fun x : List (List ℚ) => x)
          (meanCE (fun row t => row.getD t 0)) (fun _ => 0)
          [([[1], [3]], [0, 0])] =
        some (bt, ls, er, lists) ∧
      ls = sumBatchLoss (fun x : List (List ℚ) => x)
          (meanCE (fun row t => row.getD t 0)) [([[1], [3]], [0, 0])] /
        ((totalCount [(([[1], [3]] : List (List ℚ)), [0, 0])] : ℕ) : ℚ) :=
  evaluate_loss_aggregate (fun x : List (List ℚ) => x)
    (fun row t => row.getD t 0) (fun _ => 0) [([[1], [3]], [0, 0])]
    (by
      intro b hb
      simp only [List.mem_singleton] at hb
      subst hb
      decide)

/-- C10: For every run of `evaluate`, the fourth returned value is a pair
`(target_list, pred_top1_list)` of lists of equal length, that length being
the total number of samples across all batches; the entries appear in loader
iteration order and each `pred_top1_list` entry is the top-1 predicted class
index (`argmaxRow` of the model's output row) of the corresponding sample in
`target_list`. -/
theorem evaluate_pred_lists {α : Type} (model : α → List (List ℚ))
    (ce : List (List ℚ) → List ℕ → ℚ) (durs : ℕ → ℚ)
    (loader : List (α × List ℕ))
    (hne : ∀ b ∈ loader, b.2 ≠ [])
    (hlen : ∀ b ∈ loader, (model b.1).length = b.2.length) :
    ∃ bt ls er tl pl,
      evaluate model ce durs loader = some (bt, ls, er, (tl, pl)) ∧
      tl = allTargets loader ∧
      pl = (allOutputs model loader).map argmaxRow ∧
      tl.length = totalCount loader ∧
      pl.length = totalCount loader := by
  obtain ⟨h0b, h0l, h0e, h0lavg, h0eavg⟩ := EvalState.init_counts
  obtain ⟨s', hrun, -, -, -, -, -, -, htl, hpl⟩ :=
    evalLoop_spec model ce durs loader 0 EvalState.init
      ⟨0, h0b⟩ ⟨0, h0l⟩ ⟨0, h0e⟩ h0lavg h0eavg hne
  have htl' : s'.target_list = allTargets loader := by
    simpa [EvalState.init] using htl
  have hpl' : s'.pred_top1_list = allPreds model loader := by
    simpa [EvalState.init] using hpl
  refine ⟨s'.batch_time.avg, s'.losses.avg, s'.error.avg,
    s'.target_list, s'.pred_top1_list, by simp [evaluate, hrun], htl', ?_, ?_, ?_⟩
  · rw [hpl', allPreds_eq_map]
  · rw [htl', allTargets_length]
  · rw [hpl', allPreds_length model loader hlen]

/-- Witness for C10 at a concrete two-batch loader. -/
theorem evaluate_pred_lists_witness :
    ∃ bt ls er tl pl,
      evaluate (fun x : List (List ℚ) => x) (fun _ _ => (0 : ℚ))
          (fun _ => 0) [([[1, 2], [5, 0]], [1, 0]), ([[2, 9]], [0])] =
        some (bt, ls, er, (tl, pl)) ∧
      tl = allTargets [(([[1, 2], [5, 0]] : List (List ℚ)), [1, 0]),
        ([[2, 9]], [0])] ∧
      pl = (allOutputs (fun x : List (List ℚ) => x)
          [([[1, 2], [5, 0]], [1, 0]), ([[2, 9]], [0])]).map argmaxRow ∧
      tl.length = totalCount [(([[1, 2], [5, 0]] : List (List ℚ)), [1, 0]),
        ([[2, 9]], [0])] ∧
      pl.length = totalCount [(([[1, 2], [5, 0]] : List (List ℚ)), [1, 0]),
        ([[2, 9]], [0])] :=
  evaluate_pred_lists (fun x : List (List ℚ) => x) (fun _ _ => (0 : ℚ))
    (fun _ => 0) [([[1, 2], [5, 0]], [1, 0]), ([[2, 9]], [0])]
    (by
      intro b hb
      simp only [List.mem_cons, List.mem_singleton, List.not_mem_nil,
        or_false] at hb
      rcases hb with h | h <;> subst h <;> decide)
    (by
      intro b hb
      simp only [List.mem_cons, List.mem_singleton, List.not_mem_nil,
        or_false] at hb
      rcases hb with h | h <;> subst h <;> rfl)

end DenseNetUtils
